import Mathlib

/-!
Verification of the work-session bot (`src/main.py`).

The bot tracks work sessions: a `start <location>` chat message creates a
Firestore document and a mirrored Google Calendar event; a background loop
(`extend_active_events`) keeps the calendar end rolling forward while the
session is active; `stop` finalizes the session.

Shallow embedding conventions:
* Timestamps are `Int` minutes (the source uses `timedelta(minutes=...)`
  constants, so minutes are the natural unit).
* Firestore documents are `(docId, Session)` pairs in a list; the store state
  also carries a fresh-id counter standing in for Firestore's generated ids.
* External effects (calendar insert/patch, store insert/update) are recorded
  in a trace list `List Eff`; fallibility of a call is an explicit `Bool`
  or `PatchOutcome` oracle argument (an `HttpError` in the source corresponds
  to `false` / `.httpErr`, any other exception to `.otherErr`).
* `firestore.SERVER_TIMESTAMP` (the value `stop_event` writes into
  `end_time`) is modelled as an extra parameter `serverNow`, distinct from
  the bot-side clock reading `now` (`now_utc()` in the source).
* The constant document fields `"event": "work_session"` and
  `"calendar_id": CALENDAR_ID` are process-wide constants and are omitted
  from the record.
-/

namespace WorkSessionBot

abbrev Time := Int

/-- `ROLLING_HORIZON = timedelta(minutes=15)` (src/main.py line 22). -/
def ROLLING_HORIZON : Time := 15

/-- `TOP_UP_THRESHOLD = timedelta(minutes=10)` (src/main.py line 24). -/
def TOP_UP_THRESHOLD : Time := 10

/-- `PLACES = {"ieee", "mcgill", "ev", "home"}` (src/main.py line 27),
as a list in the source literal's order; the `for place in PLACES` scan in
`on_message` iterates this collection. -/
def PLACES : List String := ["ieee", "mcgill", "ev", "home"]

/-- A Firestore document of the `events` collection (src/main.py lines
114-126). -/
structure Session where
  user_id : Nat
  username : String
  guild_id : Option Nat
  location : String
  start_time : Time
  end_time : Option Time
  calendar_event_id : Option String
  calendar_end : Option Time
  last_extend_check : Time
deriving Repr, DecidableEq

/-- Store state: the `events` collection plus a fresh-document-id counter. -/
structure AppState where
  store : List (Nat × Session)
  nextId : Nat
deriving Repr, DecidableEq

/-- One external call, as recorded in the effect trace.  The `ok` flag is
whether the call succeeded (a failed call was still issued). -/
inductive Eff where
  | calInsert (summary : String) (start_dt end_dt : Time) (loc : String) (ok : Bool)
  | calPatch (event_id : String) (new_end : Time) (ok : Bool)
  | storeInsert (doc_id : Nat) (doc : Session)
  | storeUpdate (doc_id : Nat) (ok : Bool)
deriving Repr, DecidableEq

/-- The active-session query
`events_ref.where("user_id","==",uid).where("end_time","==",None)`,
with the `guild_id` filter added only when `guild` is present
(src/main.py lines 94-96 and 134-136). -/
def activeQuery (store : List (Nat × Session)) (uid : Nat) (guild : Option Nat) :
    List (Nat × Session) :=
  store.filter fun p =>
    p.2.user_id == uid && p.2.end_time == none &&
      match guild with
      | none => true
      | some g => p.2.guild_id == some g

/-- The extender's query `events_ref.where("end_time", "==", None)`
(src/main.py line 178): all active sessions, any user. -/
def activeDocs (store : List (Nat × Session)) : List (Nat × Session) :=
  store.filter fun p => p.2.end_time == none

inductive StartResult where
  | alreadyActive
  | calendarUnavailable
  | ok (docId : Nat)
deriving Repr, DecidableEq

/-- `create_event(user, location, guild_id)` (src/main.py lines 91-129).
`calOk` is whether `insert_calendar_event` succeeds; `eventId` the id Google
would return. -/
def create_event (st : AppState) (uid : Nat) (uname : String) (location : String)
    (guild : Option Nat) (now : Time) (calOk : Bool) (eventId : String) :
    AppState × StartResult × List Eff :=
  if activeQuery st.store uid guild = [] then
    let start_dt := now
    let initial_end := start_dt + ROLLING_HORIZON
    let summary := uname ++ " working at " ++ location
    if calOk then
      let doc : Session :=
        { user_id := uid
          username := uname
          guild_id := guild
          location := location
          start_time := start_dt
          end_time := none
          calendar_event_id := some eventId
          calendar_end := some initial_end
          last_extend_check := start_dt }
      (⟨st.store ++ [(st.nextId, doc)], st.nextId + 1⟩, .ok st.nextId,
        [.calInsert summary start_dt initial_end location true,
         .storeInsert st.nextId doc])
    else
      (st, .calendarUnavailable, [.calInsert summary start_dt initial_end location false])
  else
    (st, .alreadyActive, [])

inductive StopResult where
  | noActiveSession
  | genericError
  | ok (docId : Nat)
deriving Repr, DecidableEq

/-- The two-step lookup of `stop_event` (src/main.py lines 134-140): scoped
query first, then the cross-guild fallback when it was empty and a guild was
given. -/
def stopLookup (store : List (Nat × Session)) (uid : Nat) (guild : Option Nat) :
    List (Nat × Session) :=
  let snap := activeQuery store uid guild
  if snap = [] ∧ guild ≠ none then activeQuery store uid none else snap

/-- One comparison step of Python's `max(snap, key=_get_start)`: the running
maximum is replaced only on a strictly greater key, so ties keep the earlier
element. -/
def pickMax (acc y : Nat × Session) : Nat × Session :=
  if acc.2.start_time < y.2.start_time then y else acc

/-- `max(snap, key=_get_start)` (src/main.py line 148): the first element of
`snap` whose `start_time` is maximal. -/
def pickLatest : List (Nat × Session) → Option (Nat × Session)
  | [] => none
  | x :: xs => some (xs.foldl pickMax x)

/-- Field update of one document, `doc.reference.update({...})`. -/
def updateDoc (store : List (Nat × Session)) (d : Nat) (f : Session → Session) :
    List (Nat × Session) :=
  store.map fun p => if p.1 = d then (p.1, f p.2) else p

/-- `stop_event(user, guild_id)` (src/main.py lines 131-171).
`now` is `now_utc()` (the value `stop_ts`); `serverNow` the value Firestore's
`SERVER_TIMESTAMP` resolves to; `patchOk` whether the calendar patch succeeds
(an `HttpError` is caught and logged, line 158-159); `updateOk` whether the
Firestore update succeeds (its failure is an exception reaching the outer
`except Exception`, lines 169-171, which returns the generic error). -/
def stop_event (st : AppState) (uid : Nat) (guild : Option Nat) (now : Time)
    (serverNow : Time) (patchOk : Bool) (updateOk : Bool) :
    AppState × StopResult × List Eff :=
  match pickLatest (stopLookup st.store uid guild) with
  | none => (st, .noActiveSession, [])
  | some (d, s) =>
    let stop_ts := now
    let eid := s.calendar_event_id.getD ""
    let patchEffs := if eid ≠ "" then [Eff.calPatch eid stop_ts patchOk] else []
    if updateOk then
      (⟨updateDoc st.store d fun t =>
          { t with end_time := some serverNow
                   calendar_end := some stop_ts
                   last_extend_check := stop_ts },
        st.nextId⟩,
       .ok d, patchEffs ++ [.storeUpdate d true])
    else
      (st, .genericError, patchEffs ++ [.storeUpdate d false])

/-- Outcome of one `patch_calendar_event_end` call inside the extender loop:
success, an `HttpError` (caught per-session, src/main.py line 203), or any
other exception (caught only by the outer handler, line 206). -/
inductive PatchOutcome where
  | ok
  | httpErr
  | otherErr
deriving Repr, DecidableEq

/-- The body of `extend_active_events` for one active document
(src/main.py lines 184-204).  Returns the updated document, the effect
trace, and whether a non-`HttpError` exception escaped (aborting the pass). -/
def reconcileSession (now : Time) (oracle : String → PatchOutcome) (p : Nat × Session) :
    (Nat × Session) × List Eff × Bool :=
  let eid := p.2.calendar_event_id.getD ""
  if eid = "" then (p, [], false)
  else
    let current_end := p.2.calendar_end.getD now
    if current_end - now ≤ TOP_UP_THRESHOLD then
      let new_end := now + ROLLING_HORIZON
      match oracle eid with
      | .ok =>
        ((p.1, { p.2 with calendar_end := some new_end, last_extend_check := now }),
         [.calPatch eid new_end true], false)
      | .httpErr => (p, [.calPatch eid new_end false], false)
      | .otherErr => (p, [.calPatch eid new_end false], true)
    else (p, [], false)

/-- The `for doc in active` loop of `extend_active_events`, walking the whole
store and reconciling the documents the `end_time == None` query returns.
The `Bool` result records whether a non-`HttpError` exception aborted the
iteration (leaving the remaining documents untouched). -/
def extendLoop (now : Time) (oracle : String → PatchOutcome) :
    List (Nat × Session) → List (Nat × Session) × List Eff × Bool
  | [] => ([], [], false)
  | p :: rest =>
    if p.2.end_time = none then
      let r := reconcileSession now oracle p
      if r.2.2 then (r.1 :: rest, r.2.1, true)
      else
        let t := extendLoop now oracle rest
        (r.1 :: t.1, r.2.1 ++ t.2.1, t.2.2)
    else
      let t := extendLoop now oracle rest
      (p :: t.1, t.2.1, t.2.2)

/-- `extend_active_events` (src/main.py lines 174-207): one reconciliation
pass.  The outer `try/except Exception` makes the pass total: whatever the
loop did before an abort is kept, and the function returns normally. -/
def extend_active_events (st : AppState) (now : Time) (oracle : String → PatchOutcome) :
    AppState × List Eff :=
  let t := extendLoop now oracle st.store
  (⟨t.1, st.nextId⟩, t.2.1)

/-- One chat-driven or timer-driven operation, for reasoning about arbitrary
interleavings of Start / Stop / Reconcile. -/
inductive Op where
  | start (uid : Nat) (uname location : String) (guild : Option Nat)
      (now : Time) (calOk : Bool) (eventId : String)
  | stop (uid : Nat) (guild : Option Nat) (now serverNow : Time)
      (patchOk updateOk : Bool)
  | reconcile (now : Time) (oracle : String → PatchOutcome)

def step (st : AppState) : Op → AppState
  | .start uid uname loc guild now calOk eid =>
    (create_event st uid uname loc guild now calOk eid).1
  | .stop uid guild now serverNow patchOk updateOk =>
    (stop_event st uid guild now serverNow patchOk updateOk).1
  | .reconcile now oracle => (extend_active_events st now oracle).1

def run (st : AppState) (ops : List Op) : AppState := ops.foldl step st

def initialState : AppState := ⟨[], 0⟩

/-- Documents that are active for the `(uid, g)` pair (the pair of the
single-active-session invariant). -/
def pairPred (uid : Nat) (g : Option Nat) (p : Nat × Session) : Bool :=
  p.2.user_id == uid && p.2.guild_id == g && p.2.end_time == none

def activePairCount (store : List (Nat × Session)) (uid : Nat) (g : Option Nat) : Nat :=
  store.countP (pairPred uid g)

/-! ### Message parsing (`on_message`, src/main.py lines 221-269) -/

/-- `needle.toList` is a contiguous sublist of `hay.toList` starting at the
head. -/
def listHasPre : List Char → List Char → Bool
  | [], _ => true
  | _ :: _, [] => false
  | c :: cs, d :: ds => c == d && listHasPre cs ds

/-- `needle in hay` for Python strings: `needle` occurs contiguously in
`hay`. -/
def listOccurs (needle : List Char) : List Char → Bool
  | [] => listHasPre needle []
  | d :: ds => listHasPre needle (d :: ds) || listOccurs needle ds

def strOccurs (needle hay : String) : Bool := listOccurs needle.toList hay.toList

/-- What the `start` branch of `on_message` decides to do. -/
inductive StartAction where
  | promptLocation (options : List String)
  | invalidLocation (options : List String)
  | doStart (location : String)
deriving Repr, DecidableEq

/-- `sorted(PLACES)` as sent in the two user-facing messages. -/
def PLACES_SORTED : List String := ["ev", "home", "ieee", "mcgill"]

/-- Helper for `pyTokens`: accumulates the current token (reversed) while
walking the characters. -/
def splitWsAux : List Char → List Char → List String
  | acc, [] => if acc = [] then [] else [String.mk acc.reverse]
  | acc, c :: cs =>
    if c.isWhitespace then
      (if acc = [] then [] else [String.mk acc.reverse]) ++ splitWsAux [] cs
    else splitWsAux (c :: acc) cs

/-- `content.split()`: split on whitespace runs, dropping empty tokens. -/
def pyTokens (content : String) : List String := splitWsAux [] content.toList

/-- The `start` branch of `on_message` (src/main.py lines 229-247), applied
to the lower-cased, stripped message content.  `parts = content.split()`;
one token means no location was given; otherwise the whole content is
scanned for the first member of `PLACES` occurring as a substring. -/
def startCommandAction (content : String) : StartAction :=
  let parts := pyTokens content
  if parts.length = 1 then .promptLocation PLACES_SORTED
  else
    match PLACES.find? (fun place => strOccurs place content) with
    | some loc => .doStart loc
    | none => .invalidLocation PLACES_SORTED

/-- The store mutation performed by the `start` branch: `create_event` is
invoked only when a location was resolved; the prompt and invalid-location
replies leave the state untouched. -/
def startBranchState (st : AppState) (content : String) (uid : Nat) (uname : String)
    (guild : Option Nat) (now : Time) (calOk : Bool) (eventId : String) : AppState :=
  match startCommandAction content with
  | .doStart loc => (create_event st uid uname loc guild now calOk eventId).1
  | _ => st

/-- Number of calendar events actually created in a trace (successful
`insert_calendar_event` calls). -/
def calInsertOkCount (effs : List Eff) : Nat :=
  effs.countP fun e =>
    match e with
    | .calInsert _ _ _ _ ok => ok
    | _ => false

/-- Number of session documents persisted in a trace. -/
def storeInsertCount (effs : List Eff) : Nat :=
  effs.countP fun e =>
    match e with
    | .storeInsert _ _ => true
    | _ => false

/-- The session of the spec's scenario: started at `T = 0`, so
`calendar_end = T + 15` minutes. -/
def scenarioSession : Session :=
  { user_id := 1
    username := "u"
    guild_id := some 5
    location := "home"
    start_time := 0
    end_time := none
    calendar_event_id := some "E"
    calendar_end := some 15
    last_extend_check := 0 }

/-! ## Theorems -/

/-- C2: top-up policy of one reconciliation pass over a single active
session: a missing `calendar_end` counts as `now` (the `.getD now` in
`reconcileSession`); when at most `TOP_UP_THRESHOLD` remains the calendar is
patched to exactly `now + ROLLING_HORIZON` and the store mirror updated
(`calendar_end` to the patched value, `last_extend_check` to the pass time
`now`); otherwise the pass makes zero calendar calls and leaves the record
unchanged. -/
theorem reconcile_topup_policy (d nId : Nat) (s : Session) (now : Time) (eid : String)
    (oracle : String → PatchOutcome)
    (hact : s.end_time = none) (hid : s.calendar_event_id = some eid) (hne : eid ≠ "")
    (hok : oracle eid = .ok) :
    (s.calendar_end.getD now - now ≤ TOP_UP_THRESHOLD →
       extend_active_events ⟨[(d, s)], nId⟩ now oracle =
         (⟨[(d, { s with calendar_end := some (now + ROLLING_HORIZON),
                         last_extend_check := now })], nId⟩,
          [.calPatch eid (now + ROLLING_HORIZON) true])) ∧
    (TOP_UP_THRESHOLD < s.calendar_end.getD now - now →
       extend_active_events ⟨[(d, s)], nId⟩ now oracle = (⟨[(d, s)], nId⟩, [])) ∧
    (s.calendar_end = none →
       extend_active_events ⟨[(d, s)], nId⟩ now oracle =
         (⟨[(d, { s with calendar_end := some (now + ROLLING_HORIZON),
                         last_extend_check := now })], nId⟩,
          [.calPatch eid (now + ROLLING_HORIZON) true])) := by
  refine ⟨?_, ?_, ?_⟩
  · intro hle
    simp [extend_active_events, extendLoop, reconcileSession, hact, hid, hne, hok, hle]
  · intro hgt
    simp [extend_active_events, extendLoop, reconcileSession, hact, hid, hne, hok,
      not_le.mpr hgt]
  · intro hnone
    simp [extend_active_events, extendLoop, reconcileSession, hact, hid, hne, hok, hnone,
      TOP_UP_THRESHOLD]

/-- Witness for C2, the spec's scenario: `RollingHorizon = 15m`,
`TopUpThreshold = 10m`, session started at `T = 0` with
`calendar_end = T + 15m`; the pass at `T + 4m` skips (11m > 10m remain), the
pass at `T + 6m` extends to `T + 21m` (9m ≤ 10m remain). -/
theorem reconcile_topup_policy_scenario :
    extend_active_events ⟨[(0, scenarioSession)], 1⟩ 4 (fun _ => .ok) =
      (⟨[(0, scenarioSession)], 1⟩, []) ∧
    extend_active_events ⟨[(0, scenarioSession)], 1⟩ 6 (fun _ => .ok) =
      (⟨[(0, { scenarioSession with calendar_end := some 21, last_extend_check := 6 })], 1⟩,
       [.calPatch "E" 21 true]) := by
  constructor
  · exact (reconcile_topup_policy 0 1 scenarioSession 4 "E" (fun _ => .ok)
      rfl rfl (by decide) rfl).2.1 (by decide)
  · have h := (reconcile_topup_policy 0 1 scenarioSession 6 "E" (fun _ => .ok)
      rfl rfl (by decide) rfl).1 (by decide)
    simpa using h

/-- C7: the double-start guard (src/main.py lines 93-98): when a qualifying
active session exists (same user, `end_time = None`, and same guild when one
is given), `create_event` fails with the already-active error and performs no
mutation and no calendar call. -/
theorem start_guard_already_active (st : AppState) (uid : Nat) (uname loc : String)
    (guild : Option Nat) (now : Time) (calOk : Bool) (eid : String)
    (h : activeQuery st.store uid guild ≠ []) :
    create_event st uid uname loc guild now calOk eid = (st, .alreadyActive, []) := by
  simp [create_event, h]

/-- Witness for C7: Start then Start for the same actor and guild with no
intervening Stop; the second call fails with the store unchanged and no
calendar call issued. -/
theorem start_guard_already_active_witness :
    activeQuery ((create_event initialState 1 "u" "home" (some 5) 0 true "E").1).store
        1 (some 5) ≠ [] ∧
    create_event ((create_event initialState 1 "u" "home" (some 5) 0 true "E").1)
        1 "u" "home" (some 5) 3 true "F" =
      ((create_event initialState 1 "u" "home" (some 5) 0 true "E").1,
       .alreadyActive, []) := by
  exact ⟨by decide, start_guard_already_active _ 1 "u" "home" (some 5) 3 true "F" (by decide)⟩

/-- C9: parsing of a `start` command message (src/main.py lines 229-247).
With no token after `start` the user is prompted with the permitted values
and no mutation occurs; otherwise the whole message text is scanned for the
first member of `PLACES` occurring as a substring; if none occurs, an
invalid-location report is given and no mutation occurs. -/
theorem start_location_parsing (content : String) :
    ((pyTokens content).length = 1 →
       startCommandAction content = .promptLocation PLACES_SORTED ∧
       ∀ st uid uname g now calOk eid,
         startBranchState st content uid uname g now calOk eid = st) ∧
    ((pyTokens content).length ≠ 1 →
       (∀ loc, startCommandAction content = .doStart loc →
          strOccurs loc content = true ∧
          ∃ pre post, PLACES = pre ++ loc :: post ∧
            ∀ p ∈ pre, strOccurs p content = false) ∧
       ((∃ place ∈ PLACES, strOccurs place content = true) →
          ∃ loc, startCommandAction content = .doStart loc) ∧
       ((∀ place ∈ PLACES, strOccurs place content = false) →
          startCommandAction content = .invalidLocation PLACES_SORTED ∧
          ∀ st uid uname g now calOk eid,
            startBranchState st content uid uname g now calOk eid = st)) := by
  constructor
  · intro h1
    constructor
    · simp [startCommandAction, h1]
    · intro st uid uname g now calOk eid
      simp [startBranchState, startCommandAction, h1]
  · intro h1
    rcases hf : PLACES.find? (fun place => strOccurs place content) with _ | loc0
    · rw [List.find?_eq_none] at hf
      refine ⟨?_, ?_, ?_⟩
      · intro loc hloc
        rw [startCommandAction] at hloc
        simp only [if_neg h1] at hloc
        rw [List.find?_eq_none.mpr (by simpa using hf)] at hloc
        exact absurd hloc (by simp)
      · rintro ⟨place, hp, hocc⟩
        exact absurd hocc (by simpa using hf place hp)
      · intro _
        have hf2 : PLACES.find? (fun place => strOccurs place content) = none :=
          List.find?_eq_none.mpr (by simpa using hf)
        refine ⟨?_, ?_⟩
        · simp [startCommandAction, h1, hf2]
        · intro st uid uname g now calOk eid
          simp [startBranchState, startCommandAction, h1, hf2]
    · refine ⟨?_, ?_, ?_⟩
      · intro loc hloc
        rw [startCommandAction] at hloc
        simp only [if_neg h1, hf] at hloc
        have hll : loc0 = loc := by
          cases hloc
          rfl
        subst hll
        rw [List.find?_eq_some] at hf
        obtain ⟨hp, as, bs, heq, hpre⟩ := hf
        exact ⟨hp, as, bs, heq, fun p hpmem => by simpa using hpre p hpmem⟩
      · intro _
        exact ⟨loc0, by simp [startCommandAction, h1, hf]⟩
      · intro hall
        have hocc := List.find?_some hf
        have hmem := List.mem_of_find?_eq_some hf
        exact absurd hocc (by simp [hall loc0 hmem])

/-- Witness for C9: `"start"` prompts, `"start home"` starts at `home`,
`"start xyz"` reports an invalid location; the prompt and invalid cases leave
a concrete state unchanged. -/
theorem start_location_parsing_witness :
    (startCommandAction "start" = .promptLocation PLACES_SORTED ∧
      startBranchState initialState "start" 1 "u" (some 5) 0 true "E" = initialState) ∧
    startCommandAction "start home" = .doStart "home" ∧
    (startCommandAction "start xyz" = .invalidLocation PLACES_SORTED ∧
      startBranchState initialState "start xyz" 1 "u" (some 5) 0 true "E" = initialState) := by
  refine ⟨?_, ?_, ?_⟩
  · have h := (start_location_parsing "start").1 (by decide)
    exact ⟨h.1, h.2 initialState 1 "u" (some 5) 0 true "E"⟩
  · obtain ⟨loc, hloc⟩ := ((start_location_parsing "start home").2 (by decide)).2.1
      ⟨"home", by decide, by decide⟩
    have : loc = "home" := by
      have h2 := (((start_location_parsing "start home").2 (by decide)).1 loc hloc).2
      obtain ⟨pre, post, heq, hpre⟩ := h2
      have : loc ∈ PLACES := heq ▸ List.mem_append_right pre (List.mem_cons_self loc post)
      fin_cases this <;> first
        | rfl
        | (exfalso
           revert hloc
           decide)
    exact this ▸ hloc
  · have h := ((start_location_parsing "start xyz").2 (by decide)).2.2 (by decide)
    exact ⟨h.1, h.2 initialState 1 "u" (some 5) 0 true "E"⟩

/-- C4: Start is all-or-nothing (src/main.py lines 91-129): every invocation
either creates exactly one calendar event and persists exactly one session
document, or does neither; and when the calendar insert fails on a passing
guard, the calendar-unavailable error is returned, the state is unchanged,
and the actor's active-session query still returns nothing. -/
theorem start_all_or_nothing (st : AppState) (uid : Nat) (uname loc : String)
    (guild : Option Nat) (now : Time) (calOk : Bool) (eid : String) :
    ((calInsertOkCount (create_event st uid uname loc guild now calOk eid).2.2 = 1 ∧
      storeInsertCount (create_event st uid uname loc guild now calOk eid).2.2 = 1 ∧
      ∃ doc, (create_event st uid uname loc guild now calOk eid).1.store =
          st.store ++ [(st.nextId, doc)] ∧
        (create_event st uid uname loc guild now calOk eid).2.1 = .ok st.nextId) ∨
     (calInsertOkCount (create_event st uid uname loc guild now calOk eid).2.2 = 0 ∧
      storeInsertCount (create_event st uid uname loc guild now calOk eid).2.2 = 0 ∧
      (create_event st uid uname loc guild now calOk eid).1 = st)) ∧
    (calOk = false → activeQuery st.store uid guild = [] →
       (create_event st uid uname loc guild now calOk eid).2.1 = .calendarUnavailable ∧
       (create_event st uid uname loc guild now calOk eid).1 = st ∧
       activeQuery (create_event st uid uname loc guild now calOk eid).1.store uid guild
         = []) := by
  constructor
  · by_cases hg : activeQuery st.store uid guild = []
    · cases calOk with
      | true =>
        left
        refine ⟨?_, ?_,
          ⟨{ user_id := uid, username := uname, guild_id := guild, location := loc,
             start_time := now, end_time := none, calendar_event_id := some eid,
             calendar_end := some (now + ROLLING_HORIZON), last_extend_check := now },
           ?_, ?_⟩⟩ <;>
          simp [create_event, hg, calInsertOkCount, storeInsertCount, List.countP_cons]
      | false =>
        right
        refine ⟨?_, ?_, ?_⟩ <;>
          simp [create_event, hg, calInsertOkCount, storeInsertCount, List.countP_cons]
    · right
      refine ⟨?_, ?_, ?_⟩ <;>
        simp [create_event, hg, calInsertOkCount, storeInsertCount]
  · intro hcal hg
    subst hcal
    refine ⟨?_, ?_, ?_⟩ <;> simp [create_event, hg]

/-- Witness for C4: a calendar insert failure on an empty store leaves no
session behind; the subsequent active query for the actor returns nothing. -/
theorem start_all_or_nothing_witness :
    (create_event initialState 1 "u" "home" (some 5) 0 false "E").2.1
        = .calendarUnavailable ∧
    (create_event initialState 1 "u" "home" (some 5) 0 false "E").1 = initialState ∧
    activeQuery (create_event initialState 1 "u" "home" (some 5) 0 false "E").1.store
        1 (some 5) = [] :=
  (start_all_or_nothing initialState 1 "u" "home" (some 5) 0 false "E").2 rfl (by decide)

/-- A document of the active query is in the store, belongs to the actor and
is active. -/
theorem activeQuery_mem {store : List (Nat × Session)} {uid : Nat} {g : Option Nat}
    {x : Nat × Session} (h : x ∈ activeQuery store uid g) :
    x ∈ store ∧ x.2.user_id = uid ∧ x.2.end_time = none := by
  unfold activeQuery at h
  rw [List.mem_filter] at h
  obtain ⟨hx, hp⟩ := h
  simp only [Bool.and_eq_true, beq_iff_eq] at hp
  exact ⟨hx, hp.1.1, hp.1.2⟩

/-- Both steps of the stop lookup only surface the actor's active
documents. -/
theorem stopLookup_mem {store : List (Nat × Session)} {uid : Nat} {g : Option Nat}
    {x : Nat × Session} (h : x ∈ stopLookup store uid g) :
    x ∈ store ∧ x.2.user_id = uid ∧ x.2.end_time = none := by
  simp only [stopLookup] at h
  split at h
  · exact activeQuery_mem h
  · exact activeQuery_mem h

/-- The running maximum of `pickMax` is one of the candidates. -/
theorem foldl_pickMax_mem (xs : List (Nat × Session)) (a : Nat × Session) :
    xs.foldl pickMax a ∈ a :: xs := by
  induction xs generalizing a with
  | nil => simp
  | cons y ys ih =>
    rw [List.foldl_cons]
    rcases List.mem_cons.mp (ih (pickMax a y)) with heq | hmem
    · rw [heq]
      unfold pickMax
      split
      · exact List.mem_cons_of_mem a (List.mem_cons_self y ys)
      · exact List.mem_cons_self a (y :: ys)
    · exact List.mem_cons_of_mem a (List.mem_cons_of_mem y hmem)

/-- The running maximum of `pickMax` has a `start_time` at least every
candidate's. -/
theorem foldl_pickMax_ge (xs : List (Nat × Session)) (a : Nat × Session) :
    ∀ y ∈ a :: xs, y.2.start_time ≤ (xs.foldl pickMax a).2.start_time := by
  induction xs generalizing a with
  | nil =>
    intro y hy
    rcases List.mem_cons.mp hy with rfl | h
    · exact le_refl _
    · simp at h
  | cons z zs ih =>
    intro y hy
    rw [List.foldl_cons]
    have hstep : a.2.start_time ≤ (pickMax a z).2.start_time ∧
        z.2.start_time ≤ (pickMax a z).2.start_time := by
      unfold pickMax
      split
      · exact ⟨le_of_lt (by assumption), le_refl _⟩
      · exact ⟨le_refl _, le_of_not_lt (by assumption)⟩
    rcases List.mem_cons.mp hy with heq | hy2
    · rw [heq]
      exact le_trans hstep.1 (ih (pickMax a z) _ (List.mem_cons_self _ _))
    · rcases List.mem_cons.mp hy2 with heq | hy3
      · rw [heq]
        exact le_trans hstep.2 (ih (pickMax a z) _ (List.mem_cons_self _ _))
      · exact ih (pickMax a z) y (List.mem_cons_of_mem _ hy3)

/-- `pickLatest` selects a member of the list... -/
theorem pickLatest_mem {l : List (Nat × Session)} {x : Nat × Session}
    (h : pickLatest l = some x) : x ∈ l := by
  cases l with
  | nil => simp [pickLatest] at h
  | cons a xs =>
    unfold pickLatest at h
    cases h
    exact foldl_pickMax_mem xs a

/-- ... and that member's `start_time` is maximal. -/
theorem pickLatest_ge {l : List (Nat × Session)} {x : Nat × Session}
    (h : pickLatest l = some x) : ∀ y ∈ l, y.2.start_time ≤ x.2.start_time := by
  cases l with
  | nil => simp [pickLatest] at h
  | cons a xs =>
    unfold pickLatest at h
    cases h
    intro y hy
    exact foldl_pickMax_ge xs a y hy

/-- Every document of the updated store carrying the updated id has had `f`
applied (stated for the `end_time` field as used by `stop_event`). -/
theorem updateDoc_end_time {store : List (Nat × Session)} {d : Nat}
    {f : Session → Session} {v : Time} (hf : ∀ t, (f t).end_time = some v) :
    ∀ p ∈ updateDoc store d f, p.1 = d → p.2.end_time = some v := by
  intro p hp hpd
  unfold updateDoc at hp
  rw [List.mem_map] at hp
  obtain ⟨q, hq, hqe⟩ := hp
  by_cases h : q.1 = d
  · rw [if_pos h] at hqe
    rw [← hqe]
    exact hf q.2
  · rw [if_neg h] at hqe
    rw [← hqe] at hpd
    exact absurd hpd h

/-- C5: in every execution of `stop_event` that finds a session (with its
calendar event id present, as Start guarantees), the calendar patch to the
stop time is issued strictly before the store update in the effect trace,
and a patch failure is non-fatal: with the store update succeeding, the stop
still returns the session id and the stored session transitions to a
non-null `end_time`. -/
theorem stop_patch_before_update (st : AppState) (uid : Nat) (guild : Option Nat)
    (now serverNow : Time) (patchOk updateOk : Bool) (d : Nat) (s : Session) (eid : String)
    (hfind : pickLatest (stopLookup st.store uid guild) = some (d, s))
    (hid : s.calendar_event_id = some eid) (hne : eid ≠ "") :
    (stop_event st uid guild now serverNow patchOk updateOk).2.2 =
      [.calPatch eid now patchOk, .storeUpdate d updateOk] ∧
    (updateOk = true →
       (stop_event st uid guild now serverNow patchOk updateOk).2.1 = .ok d ∧
       ∀ p ∈ (stop_event st uid guild now serverNow patchOk updateOk).1.store,
         p.1 = d → p.2.end_time = some serverNow) := by
  constructor
  · rw [stop_event, hfind]
    cases updateOk <;> simp [hid, hne]
  · intro hupd
    subst hupd
    constructor
    · rw [stop_event, hfind]
      simp [hid, hne]
    · intro p hp hpd
      rw [stop_event, hfind] at hp
      simp [hid, hne] at hp
      exact updateDoc_end_time (fun t => rfl) p hp hpd

/-- Witness for C5: concrete stop with a failing calendar patch; the trace
shows the patch (carrying the stop time 7) issued before the store update,
and the session still ends up with `end_time` non-null. -/
theorem stop_patch_before_update_witness :
    (stop_event ⟨[(0, scenarioSession)], 1⟩ 1 (some 5) 7 8 false true).2.2 =
      [.calPatch "E" 7 false, .storeUpdate 0 true] ∧
    (stop_event ⟨[(0, scenarioSession)], 1⟩ 1 (some 5) 7 8 false true).2.1 = .ok 0 ∧
    ∀ p ∈ (stop_event ⟨[(0, scenarioSession)], 1⟩ 1 (some 5) 7 8 false true).1.store,
      p.1 = 0 → p.2.end_time = some 8 := by
  have h := stop_patch_before_update ⟨[(0, scenarioSession)], 1⟩ 1 (some 5) 7 8 false true
    0 scenarioSession "E" (by decide) rfl (by decide)
  exact ⟨h.1, (h.2 rfl).1, (h.2 rfl).2⟩

/-- C10: when the Firestore update inside `stop_event` fails after the
calendar patch already succeeded, the outer handler returns the generic
error, the state is unchanged, so the session's `end_time` is still null and
the session is still returned by the extender's active-session query
(`activeDocs`), hence remains eligible for extension by later passes, even
though the patch carrying the stop time was already issued. -/
theorem stop_update_failure_keeps_session_active (st : AppState) (uid : Nat)
    (guild : Option Nat) (now serverNow : Time) (d : Nat) (s : Session) (eid : String)
    (hfind : pickLatest (stopLookup st.store uid guild) = some (d, s))
    (hid : s.calendar_event_id = some eid) (hne : eid ≠ "") :
    stop_event st uid guild now serverNow true false =
      (st, .genericError, [.calPatch eid now true, .storeUpdate d false]) ∧
    s.end_time = none ∧
    (d, s) ∈ activeDocs st.store := by
  have hmem := stopLookup_mem (pickLatest_mem hfind)
  have he : s.end_time = none := hmem.2.2
  refine ⟨?_, he, ?_⟩
  · rw [stop_event, hfind]
    simp [hid, hne]
  · rw [activeDocs, List.mem_filter]
    exact ⟨hmem.1, by simp [he]⟩

/-- Witness for C10: concrete store-update failure during stop; the patch
(time 7) was issued and succeeded, the stop reports the generic error, and
the session is still active and visible to the extender. -/
theorem stop_update_failure_keeps_session_active_witness :
    stop_event ⟨[(0, scenarioSession)], 1⟩ 1 (some 5) 7 8 true false =
      (⟨[(0, scenarioSession)], 1⟩, .genericError,
       [.calPatch "E" 7 true, .storeUpdate 0 false]) ∧
    scenarioSession.end_time = none ∧
    (0, scenarioSession) ∈ activeDocs [(0, scenarioSession)] :=
  stop_update_failure_keeps_session_active ⟨[(0, scenarioSession)], 1⟩ 1 (some 5) 7 8
    0 scenarioSession "E" (by decide) rfl (by decide)

/-- C3, counterexample: `stop_event` writes
`end_time = firestore.SERVER_TIMESTAMP` (src/main.py line 163) while
`calendar_end` gets the bot-side `stop_ts = now_utc()` (line 151), so the
two clocks need not agree.  Concretely: Start at 0, Stop with the bot clock
reading 100 while the Firestore server clock resolves to 101 — the stop
succeeds, yet the stored `calendar_end` (100) differs from the stored
`end_time` (101), refuting "its stored calendarEnd equals its stored
endTime (both equal to the stop time computed as now())". -/
theorem stop_times_mismatch_counterexample :
    (stop_event ((create_event initialState 1 "u" "home" (some 5) 0 true "E").1)
        1 (some 5) 100 101 true true).2.1 = .ok 0 ∧
    (stop_event ((create_event initialState 1 "u" "home" (some 5) 0 true "E").1)
        1 (some 5) 100 101 true true).1.store =
      [(0, { user_id := 1, username := "u", guild_id := some 5, location := "home",
             start_time := 0, end_time := some 101, calendar_event_id := some "E",
             calendar_end := some 100, last_extend_check := 100 })] ∧
    ∀ p ∈ (stop_event ((create_event initialState 1 "u" "home" (some 5) 0 true "E").1)
        1 (some 5) 100 101 true true).1.store,
      p.2.calendar_end ≠ p.2.end_time := by
  refine ⟨by decide, by decide, by decide⟩

/-- C3 amended: for every successful Stop following a Start (same actor),
the stored session has a non-null `end_time` — set to the server-assigned
timestamp, not necessarily the bot-computed stop time — while its stored
`calendar_end` and `last_extend_check` both equal the stop time computed as
`now_utc()`, and a calendar patch call was issued carrying that exact stop
time. -/
theorem stop_after_start_fields (uid : Nat) (uname loc eid : String) (g : Option Nat)
    (t0 t1 serverNow : Time) (patchOk : Bool) (hne : eid ≠ "") :
    (stop_event ((create_event initialState uid uname loc g t0 true eid).1)
        uid g t1 serverNow patchOk true).2.1 = .ok 0 ∧
    (stop_event ((create_event initialState uid uname loc g t0 true eid).1)
        uid g t1 serverNow patchOk true).1.store =
      [(0, { user_id := uid, username := uname, guild_id := g, location := loc,
             start_time := t0, end_time := some serverNow,
             calendar_event_id := some eid, calendar_end := some t1,
             last_extend_check := t1 })] ∧
    Eff.calPatch eid t1 patchOk ∈
      (stop_event ((create_event initialState uid uname loc g t0 true eid).1)
        uid g t1 serverNow patchOk true).2.2 := by
  have hcr : (create_event initialState uid uname loc g t0 true eid).1 =
      ⟨[(0, ⟨uid, uname, g, loc, t0, none, some eid, some (t0 + ROLLING_HORIZON), t0⟩)],
       1⟩ := by
    simp [create_event, initialState, activeQuery]
  rw [hcr, stop_event]
  have hlook :
      stopLookup [(0, ⟨uid, uname, g, loc, t0, none, some eid,
          some (t0 + ROLLING_HORIZON), t0⟩)] uid g =
        [(0, ⟨uid, uname, g, loc, t0, none, some eid,
          some (t0 + ROLLING_HORIZON), t0⟩)] := by
    cases g <;> simp [stopLookup, activeQuery]
  rw [hlook]
  simp [pickLatest, hne, updateDoc]

/-- Witness for C3 (amended): concrete Start at 0 then Stop at bot time 100
with server time 101. -/
theorem stop_after_start_fields_witness :
    (stop_event ((create_event initialState 2 "v" "ev" none 0 true "G").1)
        2 none 100 101 false true).2.1 = .ok 0 ∧
    (stop_event ((create_event initialState 2 "v" "ev" none 0 true "G").1)
        2 none 100 101 false true).1.store =
      [(0, { user_id := 2, username := "v", guild_id := none, location := "ev",
             start_time := 0, end_time := some 101, calendar_event_id := some "G",
             calendar_end := some 100, last_extend_check := 100 })] ∧
    Eff.calPatch "G" 100 false ∈
      (stop_event ((create_event initialState 2 "v" "ev" none 0 true "G").1)
        2 none 100 101 false true).2.2 :=
  stop_after_start_fields 2 "v" "ev" "G" none 0 100 101 false (by decide)

/-- C6: Stop's lookup is the ordered two-step strategy (src/main.py lines
134-148): the scoped active query is used when it yields candidates; when it
is empty and a scope was specified, the unscoped query for the same actor is
used instead; when the lookup is still empty, `stop_event` fails with
no-active-session and performs no mutation and no calls; and among the
remaining candidates the one with the latest `start_time` is selected. -/
theorem stop_lookup_strategy (st : AppState) (uid : Nat) :
    (∀ g, activeQuery st.store uid g ≠ [] →
       stopLookup st.store uid g = activeQuery st.store uid g) ∧
    (∀ gg : Nat, activeQuery st.store uid (some gg) = [] →
       stopLookup st.store uid (some gg) = activeQuery st.store uid none) ∧
    (∀ g now serverNow patchOk updateOk, stopLookup st.store uid g = [] →
       stop_event st uid g now serverNow patchOk updateOk = (st, .noActiveSession, [])) ∧
    (∀ g x, pickLatest (stopLookup st.store uid g) = some x →
       x ∈ stopLookup st.store uid g ∧
       ∀ y ∈ stopLookup st.store uid g, y.2.start_time ≤ x.2.start_time) := by
  refine ⟨?_, ?_, ?_, ?_⟩
  · intro g hne
    simp [stopLookup, hne]
  · intro gg hemp
    simp [stopLookup, hemp]
  · intro g now serverNow patchOk updateOk hemp
    rw [stop_event, hemp]
    rfl
  · intro g x hpick
    exact ⟨pickLatest_mem hpick, pickLatest_ge hpick⟩

/-- Witness for C6: a store holding two active sessions of the same actor in
different guilds.  The query scoped to guild 2 finds its session; scoped to
guild 3 it is empty and falls back to the unscoped query; on an empty store
the stop fails with no mutation; and the unscoped lookup's pick is the
session with the later `start_time`. -/
theorem stop_lookup_strategy_witness :
    stopLookup [(0, scenarioSession),
        (1, { scenarioSession with guild_id := some 2, start_time := 3 })] 1 (some 2) =
      activeQuery [(0, scenarioSession),
        (1, { scenarioSession with guild_id := some 2, start_time := 3 })] 1 (some 2) ∧
    stopLookup [(0, scenarioSession),
        (1, { scenarioSession with guild_id := some 2, start_time := 3 })] 1 (some 3) =
      activeQuery [(0, scenarioSession),
        (1, { scenarioSession with guild_id := some 2, start_time := 3 })] 1 none ∧
    stop_event initialState 1 (some 2) 9 9 true true =
      (initialState, .noActiveSession, []) ∧
    pickLatest (stopLookup [(0, scenarioSession),
        (1, { scenarioSession with guild_id := some 2, start_time := 3 })] 1 none) =
      some (1, { scenarioSession with guild_id := some 2, start_time := 3 }) ∧
    ∀ y ∈ stopLookup [(0, scenarioSession),
        (1, { scenarioSession with guild_id := some 2, start_time := 3 })] 1 none,
      y.2.start_time ≤ 3 := by
  refine ⟨?_, ?_, ?_, by decide, ?_⟩
  · exact (stop_lookup_strategy ⟨[(0, scenarioSession),
      (1, { scenarioSession with guild_id := some 2, start_time := 3 })], 2⟩ 1).1
      (some 2) (by decide)
  · exact (stop_lookup_strategy ⟨[(0, scenarioSession),
      (1, { scenarioSession with guild_id := some 2, start_time := 3 })], 2⟩ 1).2.1
      3 (by decide)
  · exact (stop_lookup_strategy initialState 1).2.2.1 (some 2) 9 9 true true (by decide)
  · intro y hy
    exact ((stop_lookup_strategy ⟨[(0, scenarioSession),
      (1, { scenarioSession with guild_id := some 2, start_time := 3 })], 2⟩ 1).2.2.2
      none (1, { scenarioSession with guild_id := some 2, start_time := 3 })
      (by decide)).2 y hy

/-- `reconcileSession` only ever touches `calendar_end` and
`last_extend_check`: the document id, `user_id`, `guild_id` and `end_time`
come through unchanged. -/
theorem reconcileSession_fields (now : Time) (oracle : String → PatchOutcome)
    (p : Nat × Session) :
    (reconcileSession now oracle p).1.1 = p.1 ∧
    (reconcileSession now oracle p).1.2.user_id = p.2.user_id ∧
    (reconcileSession now oracle p).1.2.guild_id = p.2.guild_id ∧
    (reconcileSession now oracle p).1.2.end_time = p.2.end_time := by
  unfold reconcileSession
  dsimp only
  split
  · exact ⟨rfl, rfl, rfl, rfl⟩
  · split
    · split <;> exact ⟨rfl, rfl, rfl, rfl⟩
    · exact ⟨rfl, rfl, rfl, rfl⟩

/-- When the oracle never throws a non-`HttpError`, no per-session step
aborts the pass. -/
theorem reconcileSession_no_abort (now : Time) (oracle : String → PatchOutcome)
    (p : Nat × Session) (h : ∀ e, oracle e ≠ .otherErr) :
    (reconcileSession now oracle p).2.2 = false := by
  unfold reconcileSession
  dsimp only
  split
  · rfl
  · split
    · rcases horacle : oracle (p.2.calendar_event_id.getD "") with _ | _ | _
      · simp [horacle]
      · simp [horacle]
      · exact absurd horacle (h _)
    · rfl

/-- Under an oracle with only `HttpError`-kind failures, the pass processes
every document independently: the resulting store is the pointwise map of
`reconcileSession` over the active documents, regardless of which patches
failed. -/
theorem extendLoop_map (now : Time) (oracle : String → PatchOutcome)
    (h : ∀ e, oracle e ≠ .otherErr) : ∀ l : List (Nat × Session),
    (extendLoop now oracle l).2.2 = false ∧
    (extendLoop now oracle l).1 =
      l.map fun p => if p.2.end_time = none then (reconcileSession now oracle p).1 else p := by
  intro l
  induction l with
  | nil => exact ⟨rfl, rfl⟩
  | cons p rest ih =>
    by_cases hp : p.2.end_time = none
    · rw [extendLoop, if_pos hp]
      dsimp only
      rw [reconcileSession_no_abort now oracle p h]
      simp only [Bool.false_eq_true, if_false, List.map_cons, if_pos hp]
      exact ⟨ih.1, by rw [ih.2]⟩
    · rw [extendLoop, if_neg hp]
      dsimp only
      simp only [List.map_cons, if_neg hp]
      exact ⟨ih.1, by rw [ih.2]⟩

/-- Even under arbitrary failures (including a non-`HttpError` aborting the
iteration midway), the pass returns a store with exactly the original
document ids and every document's `end_time` unchanged. -/
theorem extendLoop_ids (now : Time) (oracle : String → PatchOutcome) :
    ∀ l : List (Nat × Session),
    (extendLoop now oracle l).1.map (fun p => (p.1, p.2.end_time)) =
      l.map fun p => (p.1, p.2.end_time) := by
  intro l
  induction l with
  | nil => rfl
  | cons p rest ih =>
    have hf := reconcileSession_fields now oracle p
    by_cases hp : p.2.end_time = none
    · rw [extendLoop, if_pos hp]
      dsimp only
      by_cases hab : (reconcileSession now oracle p).2.2
      · simp only [if_pos hab, List.map_cons, hf.1, hf.2.2.2]
      · simp only [if_neg hab, List.map_cons, hf.1, hf.2.2.2, ih]
    · rw [extendLoop, if_neg hp]
      dsimp only
      simp only [List.map_cons, ih]

/-- C8: failure isolation of one reconciliation pass
(src/main.py lines 177-207).  A calendar patch failure (`HttpError`, caught
by the per-session handler) for one session does not prevent the remaining
sessions from being processed: the pass never aborts and each active
document's outcome is its own `reconcileSession` result, independent of the
other sessions.  And under arbitrary failures — including a non-`HttpError`
exception caught only by the pass-level handler — the pass still returns
normally with every document id and `end_time` intact, so the next scheduled
invocation proceeds on a well-formed store. -/
theorem reconcile_pass_isolation (st : AppState) (now : Time) :
    (∀ oracle : String → PatchOutcome, (∀ e, oracle e ≠ .otherErr) →
       (extendLoop now oracle st.store).2.2 = false ∧
       (extend_active_events st now oracle).1.store =
         st.store.map fun p =>
           if p.2.end_time = none then (reconcileSession now oracle p).1 else p) ∧
    (∀ oracle : String → PatchOutcome,
       (extend_active_events st now oracle).1.store.map (fun p => (p.1, p.2.end_time)) =
         st.store.map fun p => (p.1, p.2.end_time)) := by
  constructor
  · intro oracle h
    exact ⟨(extendLoop_map now oracle h st.store).1,
      (extendLoop_map now oracle h st.store).2⟩
  · intro oracle
    exact extendLoop_ids now oracle st.store

/-- Witness for C8: two active sessions, the first one's patch failing with
an `HttpError`; the pass does not abort and the second session is still
extended. -/
theorem reconcile_pass_isolation_witness :
    (extendLoop 6 (fun e => if e = "E" then .httpErr else .ok)
        [(0, scenarioSession), (1, { scenarioSession with calendar_event_id := some "F" })]).2.2
      = false ∧
    (extend_active_events
        ⟨[(0, scenarioSession), (1, { scenarioSession with calendar_event_id := some "F" })], 2⟩
        6 (fun e => if e = "E" then .httpErr else .ok)).1.store =
      [(0, scenarioSession),
       (1, { scenarioSession with
             calendar_event_id := some "F"
             calendar_end := some 21
             last_extend_check := 6 })] := by
  have h := (reconcile_pass_isolation
    ⟨[(0, scenarioSession), (1, { scenarioSession with calendar_event_id := some "F" })], 2⟩
    6).1 (fun e => if e = "E" then .httpErr else .ok)
    (by intro e; by_cases he : e = "E" <;> simp [he])
  refine ⟨h.1, ?_⟩
  rw [h.2]
  decide

/-- An empty answer from the guard's active query means no session of the
`(uid, g)` pair is active (for a concrete guild the two predicates coincide;
for `g = none` the unscoped query is even stricter than the pair filter). -/
theorem activeQuery_empty_pairCount {store : List (Nat × Session)} {uid : Nat}
    {g : Option Nat} (h : activeQuery store uid g = []) :
    activePairCount store uid g = 0 := by
  rw [activePairCount, List.countP_eq_zero]
  intro p hp hpair
  have hall := List.filter_eq_nil_iff.mp h p hp
  apply hall
  unfold pairPred at hpair
  simp only [Bool.and_eq_true, beq_iff_eq] at hpair
  cases g with
  | none => simp [hpair.1.1, hpair.2]
  | some gg => simp [hpair.1.1, hpair.1.2, hpair.2]

/-- Start preserves the per-pair bound: on a passing guard the created
session is the pair's only active one. -/
theorem create_event_pair_le (st : AppState) (uid : Nat) (uname loc : String)
    (guild : Option Nat) (now : Time) (calOk : Bool) (eid : String)
    (uid' : Nat) (g' : Option Nat)
    (hinv : activePairCount st.store uid' g' ≤ 1) :
    activePairCount (create_event st uid uname loc guild now calOk eid).1.store uid' g'
      ≤ 1 := by
  by_cases hg : activeQuery st.store uid guild = []
  · cases calOk with
    | false => simpa [create_event, hg] using hinv
    | true =>
      rw [create_event]
      simp only [hg, if_pos, if_true]
      rw [activePairCount, List.countP_append]
      by_cases hpair : pairPred uid' g'
          (st.nextId, ⟨uid, uname, guild, loc, now, none, some eid,
            some (now + ROLLING_HORIZON), now⟩)
      · have heq : uid' = uid ∧ g' = guild := by
          unfold pairPred at hpair
          simp only [Bool.and_eq_true, beq_iff_eq] at hpair
          exact ⟨hpair.1.1.symm, hpair.1.2.symm⟩
        have hzero : activePairCount st.store uid' g' = 0 := by
          rw [heq.1, heq.2]
          exact activeQuery_empty_pairCount hg
        rw [activePairCount] at hzero
        simp [hzero, List.countP_cons, hpair]
      · rw [activePairCount] at hinv
        simp [List.countP_cons, hpair]
        exact hinv
  · simpa [create_event, hg] using hinv

/-- Setting `end_time` on one document never increases any pair's active
count. -/
theorem updateDoc_pairCount_le (store : List (Nat × Session)) (d : Nat)
    (f : Session → Session) (hf : ∀ t, (f t).end_time ≠ none)
    (uid' : Nat) (g' : Option Nat) :
    (updateDoc store d f).countP (pairPred uid' g') ≤ store.countP (pairPred uid' g') := by
  rw [updateDoc, List.countP_map]
  apply List.countP_mono_left
  intro p hp hcomp
  by_cases hd : p.1 = d
  · exfalso
    simp only [Function.comp_apply, if_pos hd] at hcomp
    unfold pairPred at hcomp
    simp only [Bool.and_eq_true, beq_iff_eq] at hcomp
    exact hf p.2 hcomp.2
  · simpa only [Function.comp_apply, if_neg hd] using hcomp

/-- Stop preserves the per-pair bound: it can only deactivate a session. -/
theorem stop_event_pair_le (st : AppState) (uid : Nat) (guild : Option Nat)
    (now serverNow : Time) (patchOk updateOk : Bool) (uid' : Nat) (g' : Option Nat)
    (hinv : activePairCount st.store uid' g' ≤ 1) :
    activePairCount (stop_event st uid guild now serverNow patchOk updateOk).1.store
      uid' g' ≤ 1 := by
  rw [stop_event]
  rcases hpick : pickLatest (stopLookup st.store uid guild) with _ | x
  · exact hinv
  · rcases x with ⟨d, s⟩
    cases updateOk with
    | false => simpa using hinv
    | true =>
      dsimp only
      simp only [if_true]
      calc (updateDoc st.store d _).countP (pairPred uid' g')
          ≤ st.store.countP (pairPred uid' g') :=
            updateDoc_pairCount_le st.store d _ (fun t => by simp) uid' g'
        _ ≤ 1 := hinv

/-- A reconciliation pass leaves every pair's active count unchanged. -/
theorem extendLoop_pairCount (now : Time) (oracle : String → PatchOutcome)
    (uid' : Nat) (g' : Option Nat) : ∀ l : List (Nat × Session),
    (extendLoop now oracle l).1.countP (pairPred uid' g') =
      l.countP (pairPred uid' g') := by
  intro l
  induction l with
  | nil => rfl
  | cons p rest ih =>
    have hf := reconcileSession_fields now oracle p
    have hpp : pairPred uid' g' (reconcileSession now oracle p).1 = pairPred uid' g' p := by
      unfold pairPred
      rw [hf.2.1, hf.2.2.1, hf.2.2.2]
    by_cases hp : p.2.end_time = none
    · rw [extendLoop, if_pos hp]
      dsimp only
      by_cases hab : (reconcileSession now oracle p).2.2
      · simp only [if_pos hab, List.countP_cons, hpp]
      · simp only [if_neg hab, List.countP_cons, hpp, ih]
    · rw [extendLoop, if_neg hp]
      dsimp only
      simp only [List.countP_cons, ih]

/-- Any single operation preserves the per-pair bound. -/
theorem step_pair_le (st : AppState) (op : Op) (uid' : Nat) (g' : Option Nat)
    (hinv : activePairCount st.store uid' g' ≤ 1) :
    activePairCount (step st op).store uid' g' ≤ 1 := by
  cases op with
  | start uid uname loc guild now calOk eid =>
    exact create_event_pair_le st uid uname loc guild now calOk eid uid' g' hinv
  | stop uid guild now serverNow patchOk updateOk =>
    exact stop_event_pair_le st uid guild now serverNow patchOk updateOk uid' g' hinv
  | reconcile now oracle =>
    rw [step, extend_active_events]
    rw [activePairCount] at hinv ⊢
    dsimp only
    rw [extendLoop_pairCount now oracle uid' g' st.store]
    exact hinv

/-- C1: the single-active-session invariant.  Under any sequence of Start,
Stop and Reconcile operations from the empty store, at most one session with
`end_time = None` exists per `(user_id, guild_id)` pair: Start's guard
refuses a second active session for the pair, and Stop's update is the only
operation writing `end_time` — a Reconcile pass never changes any document's
id or `end_time` (second conjunct), so only Stop clears the active status. -/
theorem single_active_session_invariant :
    (∀ ops : List Op, ∀ uid : Nat, ∀ g : Option Nat,
       activePairCount (run initialState ops).store uid g ≤ 1) ∧
    (∀ st : AppState, ∀ now : Time, ∀ oracle : String → PatchOutcome,
       (extend_active_events st now oracle).1.store.map (fun p => (p.1, p.2.end_time)) =
         st.store.map fun p => (p.1, p.2.end_time)) := by
  constructor
  · have hrun : ∀ ops : List Op, ∀ st : AppState,
        (∀ uid g, activePairCount st.store uid g ≤ 1) →
        ∀ uid g, activePairCount (run st ops).store uid g ≤ 1 := by
      intro ops
      induction ops with
      | nil => intro st h uid g; exact h uid g
      | cons op rest ih =>
        intro st h uid g
        rw [run, List.foldl_cons]
        exact ih (step st op) (fun uid' g' => step_pair_le st op uid' g' (h uid' g')) uid g
    intro ops uid g
    exact hrun ops initialState (fun uid' g' => by simp [activePairCount, initialState]) uid g
  · intro st now oracle
    exact extendLoop_ids now oracle st.store

end WorkSessionBot
